import Mathlib

/-!
Shallow embedding of the multinode linking subsystem
(`bioptim/limits/multinode_constraint.py`): the `MultinodeConstraint`
constructor validation, the pool slot allocator `ensure_penalty_sanity`,
`MultinodeConstraintList.prepare_multinode_constraints`, and the built-in
residual functions `states_equality`, `controls_equality`, `time_equality`
and the occurrence-disambiguation helper `_prepare_controller_cx`.

Python values are modelled as follows: node selectors and phase entries are
small inductive types covering the integer and non-integer cases the code
distinguishes with `isinstance`; symbolic/numeric vectors are `List Int`;
parameter vectors are association lists of name/value pairs; pools are
`List (Option α)` where `none` is the empty slot (`[]` in the code, which is
falsy); raised exceptions are `Except` errors.
-/

namespace Bioptim

/-- Node selector: one of the `Node` enum markers the constructor accepts,
a further `Node` member that is not accepted (`MULTINODES` stands for any of
them), a Python `int`, or any other non-int value. -/
inductive NodeSel where
  | start
  | mid
  | penultimate
  | nodeEnd
  | multinodes
  | intIdx (n : Int)
  | nonIntOther
deriving DecidableEq, Repr

/-- `node in (Node.START, Node.MID, Node.PENULTIMATE, Node.END)` -/
def NodeSel.isAcceptedMarker : NodeSel → Bool
  | .start => true
  | .mid => true
  | .penultimate => true
  | .nodeEnd => true
  | _ => false

/-- `isinstance(node, int)` -/
def NodeSel.isIntNode : NodeSel → Bool
  | .intIdx _ => true
  | _ => false

/-- A value appearing in `nodes_phase`: a Python `int` or anything else. -/
inductive PhaseVal where
  | intVal (n : Int)
  | nonIntVal
deriving DecidableEq, Repr

/-- `isinstance(phase, int)` -/
def PhaseVal.isInt : PhaseVal → Bool
  | .intVal _ => true
  | .nonIntVal => false

/-- The validation block of `MultinodeConstraint.__init__` (source lines
76-88): raise `ValueError` if some node is neither an accepted marker nor an
`int`, if some phase entry is not an `int`, or if the two tuples have
different lengths. -/
def validate_multinode_constraint (nodes : List NodeSel) (nodesPhase : List PhaseVal) :
    Except Unit Unit :=
  if nodes.all (fun n => n.isAcceptedMarker || n.isIntNode) then
    if nodesPhase.all PhaseVal.isInt then
      if nodes.length = nodesPhase.length then .ok () else .error ()
    else .error ()
  else .error ()

/-- The raise condition exactly as the spec claim words it: some node is
neither one of the four symbolic markers nor a NON-NEGATIVE integer, some
phase entry is not an integer, or the lengths differ. Stated from the spec,
to be compared with `validate_multinode_constraint` (which never checks the
sign of an integer node). -/
def specValidationRejects (nodes : List NodeSel) (nodesPhase : List PhaseVal) : Prop :=
  (∃ n ∈ nodes, n.isAcceptedMarker = false ∧ ¬∃ k : Int, 0 ≤ k ∧ n = .intIdx k) ∨
  (∃ p ∈ nodesPhase, p.isInt = false) ∨
  nodes.length ≠ nodesPhase.length

/-- Pool slot allocation, `MultinodeConstraint.ensure_penalty_sanity`
(source lines 118-135), acting on the selected pool. A slot is free when it
is falsy (`[]`), modelled as `none`. Returns the new `list_index` and the
new pool. -/
def findFirstEmptySlot : List (Option α) → Option Nat
  | [] => none
  | none :: _ => some 0
  | some _ :: rest => (findFirstEmptySlot rest).map (· + 1)

/-- `while self.list_index >= len(g_to_add_to): g_to_add_to.append([])` -/
def growTo (pool : List (Option α)) (n : Nat) : List (Option α) :=
  if pool.length ≤ n then growTo (pool ++ [none]) n else pool
termination_by n + 1 - pool.length
decreasing_by simp [List.length_append]; omega

def ensure_penalty_sanity (listIndex : Int) (pool : List (Option α)) :
    Int × List (Option α) :=
  if listIndex < 0 then
    match findFirstEmptySlot pool with
    | some i => ((i : Int), pool)
    | none => ((pool.length : Int), pool ++ [none])
  else
    let grown := growTo pool listIndex.toNat
    (listIndex, grown.set listIndex.toNat none)

/-- `MultinodeConstraintFunctions.Functions._prepare_controller_cx` (source
lines 450-460): walking the controllers in order, each controller's
`cx_index_to_get` is the count of earlier controllers sharing its
`phase_idx`; the input is the list of the controllers' phase indices and the
output the list of assigned `cx_index_to_get` values. -/
def prepareControllerCxLoop (existingPhases : List Int) : List Int → List Nat
  | [] => []
  | p :: rest =>
    (existingPhases.countP (fun i => i == p)) :: prepareControllerCxLoop (existingPhases ++ [p]) rest

def prepare_controller_cx (phaseIdxs : List Int) : List Nat :=
  prepareControllerCxLoop [] phaseIdxs

/-- `ObjectiveFunction.MayerFunction`, the realization base installed on a
nonzero-weight link by `prepare_multinode_constraints`. -/
inductive PenaltyBase where
  | mayerFunction
deriving DecidableEq, Repr

/-- The fields of a `MultinodeConstraint` that
`prepare_multinode_constraints` reads and writes: the `nodes_phase` tuple
(already past the constructor, hence integers), the `weight`, and the
`base` attribute (absent until assigned). -/
structure MNCLink where
  nodesPhase : List Int
  weight : Int
  base : Option PenaltyBase
deriving DecidableEq, Repr

/-- `phase < 0 or phase >= ocp.n_phases` -/
def phaseOutOfRange (nPhases : Nat) (p : Int) : Bool :=
  p < 0 || (nPhases : Int) ≤ p

def linkPhasesOk (nPhases : Nat) (m : MNCLink) : Bool :=
  m.nodesPhase.all (fun p => !phaseOutOfRange nPhases p)

/-- `if mnc.weight: mnc.base = ObjectiveFunction.MayerFunction` -/
def setMayerBase (m : MNCLink) : MNCLink :=
  if m.weight ≠ 0 then MNCLink.mk m.nodesPhase m.weight (some .mayerFunction) else m

/-- `MultinodeConstraintList.prepare_multinode_constraints` (source lines
177-201): for each link in insertion order, raise `RuntimeError` if some
referenced phase is out of `[0, n_phases)`, otherwise mark nonzero-weight
links with the Mayer base and append the link to the returned list. -/
def prepare_multinode_constraints (nPhases : Nat) : List MNCLink → Except Unit (List MNCLink)
  | [] => .ok []
  | m :: rest =>
    if linkPhasesOk nPhases m then
      match prepare_multinode_constraints nPhases rest with
      | .ok l => .ok (setMayerBase m :: l)
      | .error e => .error e
    else .error ()

/-- The state of the link collection after `prepare_multinode_constraints`
returns or raises: links are mutated in place in insertion order, and the
first out-of-range link aborts the pass, leaving it and every later link
untouched. -/
def prepareFinalState (nPhases : Nat) : List MNCLink → List MNCLink
  | [] => []
  | m :: rest =>
    if linkPhasesOk nPhases m then setMayerBase m :: prepareFinalState nPhases rest
    else m :: rest

/-- The state/control vectors of one controller and the per-link
`states_mapping`: symbolic vectors are modelled as `List Int`, casadi shape
equality as length equality. -/
structure StatesMapping where
  toFirst : List Int → List Int
  toSecond : List Int → List Int

inductive ShapeErr where
  | shapeMismatch
deriving DecidableEq, Repr

def vecZeros (n : Nat) : List Int := List.replicate n 0

def vecAdd (a b : List Int) : List Int := List.zipWith (· + ·) a b

def vecSub (a b : List Int) : List Int := List.zipWith (· - ·) a b

/-- The loop of `states_equality` over `controllers[1:]`: map each state
vector through `to_first`, raise on shape mismatch with the mapped first
vector `s0`, else accumulate `out += s0 - si`. -/
def statesEqualityLoop (m : StatesMapping) (s0 : List Int) (out : List Int) :
    List (List Int) → Except ShapeErr (List Int)
  | [] => .ok out
  | ci :: rest =>
    let si := m.toFirst ci
    if s0.length ≠ si.length then .error .shapeMismatch
    else statesEqualityLoop m s0 (vecAdd out (vecSub s0 si)) rest

/-- `MultinodeConstraintFunctions.Functions.states_equality` (source lines
214-249) on the controllers' raw state vectors (`c0` for `controllers[0]`,
`rest` for the others). -/
def states_equality (m : StatesMapping) (c0 : List Int) (rest : List (List Int)) :
    Except ShapeErr (List Int) :=
  let s0 := m.toSecond c0
  statesEqualityLoop m s0 (vecZeros s0.length) rest

/-- The loop of `controls_equality` over `controllers[1:]`: no mapping is
applied to control vectors. -/
def controlsEqualityLoop (c0 : List Int) (out : List Int) :
    List (List Int) → Except ShapeErr (List Int)
  | [] => .ok out
  | ci :: rest =>
    if c0.length ≠ ci.length then .error .shapeMismatch
    else controlsEqualityLoop c0 (vecAdd out (vecSub c0 ci)) rest

/-- `MultinodeConstraintFunctions.Functions.controls_equality` (source lines
251-286). -/
def controls_equality (c0 : List Int) (rest : List (List Int)) :
    Except ShapeErr (List Int) :=
  controlsEqualityLoop c0 (vecZeros c0.length) rest

/-- A controller as `time_equality` sees it: its `phase_idx` and its
parameter vector, each entry carrying its casadi name and its value. -/
structure TimeCtrl where
  phaseIdx : Nat
  params : List (String × Int)

def timeParamName (phaseIdx : Nat) : String :=
  "time_phase_" ++ toString phaseIdx

/-- The search loop of `time_equality`: iterate over all parameter entries
and, on a name match, set the located index to `phase_idx` (the loop counter
`i` is discarded by the source). -/
def locateTimeIdx (c : TimeCtrl) : Option Nat :=
  c.params.foldl
    (fun acc kv => if kv.1 = timeParamName c.phaseIdx then some c.phaseIdx else acc) none

inductive TimeEqErr where
  | missingTimeParameterPre
  | missingTimeParameterPost
  | indexError
deriving DecidableEq, Repr

/-- `MultinodeConstraintFunctions.Functions.time_equality` (source lines
382-428): locate the time parameter of each of the two controllers, raising
a missing-time-parameter error if the name search fails, then return
`pre.parameters.cx[time_pre_idx] - post.parameters.cx[time_post_idx]`
(an out-of-range index is a casadi/Python index error). -/
def time_equality (pre post : TimeCtrl) : Except TimeEqErr Int :=
  match locateTimeIdx pre with
  | none => .error .missingTimeParameterPre
  | some preIdx =>
    match locateTimeIdx post with
    | none => .error .missingTimeParameterPost
    | some postIdx =>
      match pre.params.get? preIdx, post.params.get? postIdx with
      | some kvPre, some kvPost => .ok (kvPre.2 - kvPost.2)
      | _, _ => .error .indexError

/-- The value the spec means by "the located parameter value": the value of
the entry whose name matches `time_phase_<phase_idx>`. Stated from the spec,
to be compared with what `time_equality` returns. -/
def locatedTimeValue (c : TimeCtrl) : Option Int :=
  (c.params.find? (fun kv => kv.1 == timeParamName c.phaseIdx)).map (fun kv => kv.2)

/-- The members of `MultinodeConstraintFcn`. -/
inductive MCFcn where
  | statesEquality
  | controlsEquality
  | custom
  | comEquality
  | comVelocityEquality
  | timeConstraint
deriving DecidableEq, Repr

/-- The `multinode_constraint` argument of `MultinodeConstraint.__init__`:
either a member of `MultinodeConstraintFcn` or any other value (a user
callable, identified by a tag). -/
inductive MCInput where
  | libraryFcn (f : MCFcn)
  | customCallable (c : Nat)
deriving DecidableEq, Repr

/-- The custom-wrapping prologue of `MultinodeConstraint.__init__` (source
lines 64-74): if the key `"force_multinode"` is present in `params`
(whatever its value), set the flag and delete the key; then, unless the flag
is set, rewrap a non-library `multinode_constraint` as `CUSTOM`, moving it
into `custom_function`. Returns the `multinode_constraint` value, the
`custom_function` value, and the params forwarded to the parent
constructor. -/
def initWrapMultinode (mc : MCInput) (customFunction : Option Nat)
    (params : List (String × Bool)) : MCInput × Option Nat × List (String × Bool) :=
  let forceMultinode := params.any (fun kv => kv.1 == "force_multinode")
  let params2 :=
    if forceMultinode then params.filter (fun kv => !(kv.1 == "force_multinode")) else params
  match mc, forceMultinode with
  | .libraryFcn f, _ => (.libraryFcn f, customFunction, params2)
  | .customCallable c, true => (.customCallable c, customFunction, params2)
  | .customCallable c, false => (.libraryFcn .custom, some c, params2)

/-! ### Helper lemmas -/

lemma findFirstEmptySlot_eq_some {α : Type} (pool : List (Option α)) (k : Nat)
    (hk : pool[k]? = some none) (hlt : ∀ j < k, pool[j]? ≠ some none) :
    findFirstEmptySlot pool = some k := by
  induction pool generalizing k with
  | nil => simp at hk
  | cons s rest ih =>
    cases s with
    | none =>
      cases k with
      | zero => rfl
      | succ j =>
        exact absurd (by simp : ((none :: rest) : List (Option α))[0]? = some none)
          (hlt 0 (Nat.succ_pos j))
    | some a =>
      cases k with
      | zero => simp at hk
      | succ j =>
        have hk' : rest[j]? = some none := by simpa using hk
        have hlt' : ∀ i < j, rest[i]? ≠ some none := by
          intro i hi
          have := hlt (i + 1) (by omega)
          simpa using this
        simp [findFirstEmptySlot, ih j hk' hlt']

lemma findFirstEmptySlot_eq_none {α : Type} (pool : List (Option α))
    (h : ∀ s ∈ pool, s ≠ none) : findFirstEmptySlot pool = none := by
  induction pool with
  | nil => rfl
  | cons s rest ih =>
    cases s with
    | none => exact absurd rfl (h none (List.mem_cons_self _ _))
    | some a =>
      simp [findFirstEmptySlot, ih (fun x hx => h x (List.mem_cons_of_mem _ hx))]

lemma growTo_eq {α : Type} (k : Nat) : ∀ (pool : List (Option α)) (n : Nat),
    n + 1 - pool.length = k → growTo pool n = pool ++ List.replicate k none := by
  induction k with
  | zero =>
    intro pool n h
    rw [growTo, if_neg (by omega)]
    simp
  | succ k ih =>
    intro pool n h
    rw [growTo, if_pos (by omega)]
    rw [ih (pool ++ [none]) n (by simp; omega)]
    simp [List.replicate_succ, List.append_assoc]

/-! ### Claim theorems -/

/-- C2: when the link's slot is unassigned (`list_index < 0`),
`ensure_penalty_sanity` claims the first empty slot's index without
appending (in particular the pool length is unchanged when the earliest
empty slot is at position `k`), and when no slot is empty it appends exactly
one fresh empty slot and assigns that new last index. -/
theorem ensure_penalty_sanity_fresh {α : Type} (li : Int) (pool : List (Option α)) (k : Nat)
    (hneg : li < 0) :
    (pool[k]? = some none → (∀ j < k, pool[j]? ≠ some none) →
      ensure_penalty_sanity li pool = ((k : Int), pool)) ∧
    ((∀ s ∈ pool, s ≠ none) →
      ensure_penalty_sanity li pool = ((pool.length : Int), pool ++ [none])) := by
  constructor
  · intro hk hlt
    unfold ensure_penalty_sanity
    rw [if_pos hneg, findFirstEmptySlot_eq_some pool k hk hlt]
  · intro h
    unfold ensure_penalty_sanity
    rw [if_pos hneg, findFirstEmptySlot_eq_none pool h]

/-- Witness for C2: in pool `[occupied, empty, occupied]` the fresh link
gets slot 1 and the pool is unchanged; in pool `[occupied, occupied]` one
empty slot is appended and the fresh link gets slot 2. -/
theorem ensure_penalty_sanity_fresh_witness :
    ((-1 : Int) < 0 ∧
      ensure_penalty_sanity (-1) ([some 0, none, some 1] : List (Option Nat)) =
        ((1 : Int), [some 0, none, some 1])) ∧
    ((-1 : Int) < 0 ∧
      ensure_penalty_sanity (-1) ([some 0, some 1] : List (Option Nat)) =
        ((2 : Int), [some 0, some 1, none])) := by
  constructor
  · exact ⟨by decide,
      (ensure_penalty_sanity_fresh (-1) [some 0, none, some 1] 1 (by decide)).1
        (by decide) (by decide)⟩
  · exact ⟨by decide,
      (ensure_penalty_sanity_fresh (-1) [some 0, some 1] 0 (by decide)).2 (by decide)⟩

/-- C3: when the link's slot is already assigned (`list_index >= 0`),
re-running `ensure_penalty_sanity` keeps the slot index, leaves the pool
with at least `list_index + 1` entries, resets the entry at that index to
empty, and leaves every other already-existing slot's contents unchanged. -/
theorem ensure_penalty_sanity_reuse {α : Type} (li : Int) (pool : List (Option α))
    (h : 0 ≤ li) :
    (ensure_penalty_sanity li pool).1 = li ∧
    li.toNat + 1 ≤ (ensure_penalty_sanity li pool).2.length ∧
    (ensure_penalty_sanity li pool).2[li.toNat]? = some none ∧
    ∀ i, i < pool.length → i ≠ li.toNat →
      (ensure_penalty_sanity li pool).2[i]? = pool[i]? := by
  have hnneg : ¬li < 0 := by omega
  have hg : growTo pool li.toNat =
      pool ++ List.replicate (li.toNat + 1 - pool.length) none := growTo_eq _ pool li.toNat rfl
  have hlen : (growTo pool li.toNat).length = max pool.length (li.toNat + 1) := by
    rw [hg]; simp; omega
  have hlt : li.toNat < (growTo pool li.toNat).length := by omega
  unfold ensure_penalty_sanity
  rw [if_neg hnneg]
  refine ⟨rfl, ?_, ?_, ?_⟩
  · simpa using by omega
  · exact List.getElem?_set_eq_of_lt none hlt
  · intro i hi hne
    rw [List.getElem?_set_ne (fun hcontra => hne hcontra.symm), hg,
      List.getElem?_append_left hi]

/-- Witness for C3: re-preparing a link whose slot is 3 in a two-entry pool
keeps index 3, grows the pool to four entries, empties entry 3 and leaves
entries 0 and 1 unchanged. -/
theorem ensure_penalty_sanity_reuse_witness :
    (0 : Int) ≤ 3 ∧
      ((ensure_penalty_sanity 3 ([some 0, some 1] : List (Option Nat))).1 = 3 ∧
        (3 : Int).toNat + 1 ≤ (ensure_penalty_sanity 3 ([some 0, some 1] : List (Option Nat))).2.length ∧
        (ensure_penalty_sanity 3 ([some 0, some 1] : List (Option Nat))).2[(3 : Int).toNat]? = some none ∧
        ∀ i, i < ([some 0, some 1] : List (Option Nat)).length → i ≠ (3 : Int).toNat →
          (ensure_penalty_sanity 3 ([some 0, some 1] : List (Option Nat))).2[i]? =
            ([some 0, some 1] : List (Option Nat))[i]?) :=
  ⟨by decide, ensure_penalty_sanity_reuse 3 [some 0, some 1] (by decide)⟩

lemma prepareControllerCxLoop_getElem (ps : List Int) :
    ∀ (existing : List Int) (i : Nat),
      (prepareControllerCxLoop existing ps)[i]? =
        (ps[i]?).map (fun p => (existing ++ ps.take i).countP (fun q => q == p)) := by
  induction ps with
  | nil => intro existing i; simp [prepareControllerCxLoop]
  | cons p rest ih =>
    intro existing i
    cases i with
    | zero => simp [prepareControllerCxLoop]
    | succ j =>
      simp only [prepareControllerCxLoop, List.getElem?_cons_succ]
      rw [ih (existing ++ [p]) j]
      simp [List.append_assoc]

/-- C8: the occurrence index assigned to the `i`-th controller is exactly
the number of controllers at earlier positions that share its phase index
(so two controllers in the same phase get 0 then 1, and two controllers in
distinct phases both get 0). -/
theorem prepare_controller_cx_spec (phaseIdxs : List Int) (i : Nat) :
    (prepare_controller_cx phaseIdxs)[i]? =
      (phaseIdxs[i]?).map (fun p => (phaseIdxs.take i).countP (fun q => q == p)) := by
  have h := prepareControllerCxLoop_getElem phaseIdxs [] i
  simpa [prepare_controller_cx] using h

/-- C9: if the key `"force_multinode"` is present in the constructor's extra
parameters, whatever its value (`false` included), the
`multinode_constraint` argument is forwarded unwrapped (never rewritten to
the `CUSTOM` tag) and the key is removed from the forwarded parameters. -/
theorem initWrapMultinode_force (mc : MCInput) (customFunction : Option Nat)
    (params : List (String × Bool)) (h : ∃ kv ∈ params, kv.1 = "force_multinode") :
    (initWrapMultinode mc customFunction params).1 = mc ∧
    ∀ kv ∈ (initWrapMultinode mc customFunction params).2.2, kv.1 ≠ "force_multinode" := by
  have hany : params.any (fun kv => kv.1 == "force_multinode") = true := by
    rcases h with ⟨kv, hmem, heq⟩
    exact List.any_eq_true.mpr ⟨kv, hmem, by simpa using heq⟩
  cases mc with
  | libraryFcn f =>
    exact ⟨by simp [initWrapMultinode, hany],
      by simp [initWrapMultinode, hany]⟩
  | customCallable c =>
    exact ⟨by simp [initWrapMultinode, hany],
      by simp [initWrapMultinode, hany]⟩

/-- Witness for C9: with `params = [("force_multinode", false)]` a
non-library `multinode_constraint` stays unwrapped and the key is gone from
the forwarded parameters. -/
theorem initWrapMultinode_force_witness :
    (∃ kv ∈ ([("force_multinode", false)] : List (String × Bool)),
        kv.1 = "force_multinode") ∧
    ((initWrapMultinode (.customCallable 7) none [("force_multinode", false)]).1 =
        .customCallable 7 ∧
      ∀ kv ∈ (initWrapMultinode (.customCallable 7) none
          [("force_multinode", false)]).2.2, kv.1 ≠ "force_multinode") :=
  ⟨⟨("force_multinode", false), by simp, rfl⟩,
    initWrapMultinode_force (.customCallable 7) none [("force_multinode", false)]
      ⟨("force_multinode", false), by simp, rfl⟩⟩

/-- C4 counterexample: `nodes = (-1, -1)` with `nodes_phase = (0, 0)`
satisfies the claim's raise condition (a node that is neither a marker nor a
non-negative integer), yet construction succeeds: the source only checks
`isinstance(node, int)` and never the sign. -/
theorem validate_negative_node_counterexample :
    specValidationRejects [.intIdx (-1), .intIdx (-1)] [.intVal 0, .intVal 0] ∧
    validate_multinode_constraint [.intIdx (-1), .intIdx (-1)] [.intVal 0, .intVal 0] =
      .ok () := by
  constructor
  · left
    refine ⟨.intIdx (-1), by simp, rfl, ?_⟩
    rintro ⟨k, hk, hEq⟩
    cases hEq
    omega
  · rfl

/-- C4 amended: the constructor raises a `ValueError`-kind failure if and
only if some node is neither one of the four symbolic markers nor an
integer (of any sign), some phase index is not an integer, or
`len(nodes) != len(nodes_phase)`. -/
theorem validate_multinode_constraint_spec (nodes : List NodeSel)
    (nodesPhase : List PhaseVal) :
    validate_multinode_constraint nodes nodesPhase = .error () ↔
      (∃ n ∈ nodes, n.isAcceptedMarker = false ∧ n.isIntNode = false) ∨
      (∃ p ∈ nodesPhase, p.isInt = false) ∨
      nodes.length ≠ nodesPhase.length := by
  unfold validate_multinode_constraint
  by_cases h1 : nodes.all (fun n => n.isAcceptedMarker || n.isIntNode) = true
  · rw [if_pos h1]
    by_cases h2 : nodesPhase.all PhaseVal.isInt = true
    · rw [if_pos h2]
      by_cases h3 : nodes.length = nodesPhase.length
      · rw [if_pos h3]
        constructor
        · intro hcontra; exact absurd hcontra (by simp)
        · intro hor
          exfalso
          rcases hor with ⟨n, hn, hm, hi⟩ | ⟨p, hp, hpi⟩ | hlen
          · have := List.all_eq_true.mp h1 n hn
            simp [hm, hi] at this
          · have := List.all_eq_true.mp h2 p hp
            simp [hpi] at this
          · exact hlen h3
      · rw [if_neg h3]
        exact ⟨fun _ => Or.inr (Or.inr h3), fun _ => rfl⟩
    · rw [if_neg h2]
      refine ⟨fun _ => Or.inr (Or.inl ?_), fun _ => rfl⟩
      rcases by simpa using h2 with ⟨p, hp, hpi⟩
      exact ⟨p, hp, by simpa using hpi⟩
  · rw [if_neg h1]
    refine ⟨fun _ => Or.inl ?_, fun _ => rfl⟩
    rcases by simpa [not_or] using h1 with ⟨n, hn, hm, hi⟩
    exact ⟨n, hn, by simpa using hm, by simpa using hi⟩

lemma linkPhasesOk_false_iff (nPhases : Nat) (m : MNCLink) :
    linkPhasesOk nPhases m = false ↔
      ∃ p ∈ m.nodesPhase, p < 0 ∨ (nPhases : Int) ≤ p := by
  rw [linkPhasesOk, List.all_eq_false]
  constructor
  · rintro ⟨p, hp, hbad⟩
    refine ⟨p, hp, ?_⟩
    have hpo : phaseOutOfRange nPhases p = true := by
      cases hx : phaseOutOfRange nPhases p
      · exact absurd (by simp [hx]) hbad
      · rfl
    simpa [phaseOutOfRange] using hpo
  · rintro ⟨p, hp, hbad⟩
    refine ⟨p, hp, ?_⟩
    have hpo : phaseOutOfRange nPhases p = true := by
      simpa [phaseOutOfRange] using hbad
    simp [hpo]

lemma prepare_error_iff (nPhases : Nat) (ms : List MNCLink) :
    prepare_multinode_constraints nPhases ms = .error () ↔
      ∃ m ∈ ms, linkPhasesOk nPhases m = false := by
  induction ms with
  | nil => simp [prepare_multinode_constraints]
  | cons m rest ih =>
    by_cases hm : linkPhasesOk nPhases m = true
    · rw [show prepare_multinode_constraints nPhases (m :: rest) =
          (match prepare_multinode_constraints nPhases rest with
            | .ok l => .ok (setMayerBase m :: l)
            | .error e => .error e) by
          simp [prepare_multinode_constraints, hm]]
      cases hrest : prepare_multinode_constraints nPhases rest with
      | ok l =>
        simp only [hrest]
        constructor
        · intro hcontra; exact absurd hcontra (by simp)
        · rintro ⟨mj, hmj, hbad⟩
          rcases List.mem_cons.mp hmj with rfl | hmem
          · exact absurd hm (by simp [hbad])
          · exact absurd (hrest ▸ (ih.mpr ⟨mj, hmem, hbad⟩)) (by simp)
      | error e =>
        simp only [hrest]
        cases e
        refine ⟨fun _ => ?_, fun _ => by trivial⟩
        rcases ih.mp hrest with ⟨mj, hmem, hbad⟩
        exact ⟨mj, List.mem_cons_of_mem _ hmem, hbad⟩
    · rw [show prepare_multinode_constraints nPhases (m :: rest) = .error () by
        simp [prepare_multinode_constraints, hm]]
      refine ⟨fun _ => ⟨m, List.mem_cons_self _ _, by simpa using hm⟩, fun _ => by trivial⟩

lemma prepare_ok (nPhases : Nat) (ms : List MNCLink)
    (h : ∀ m ∈ ms, linkPhasesOk nPhases m = true) :
    prepare_multinode_constraints nPhases ms = .ok (ms.map setMayerBase) := by
  induction ms with
  | nil => rfl
  | cons m rest ih =>
    have hm : linkPhasesOk nPhases m = true := h m (List.mem_cons_self _ _)
    have hrest := ih (fun x hx => h x (List.mem_cons_of_mem _ hx))
    simp [prepare_multinode_constraints, hm, hrest]

/-- C5: `prepare_multinode_constraints` raises the phase-range error if and
only if some link references a phase outside `[0, n_phases)`; when no link
does, it returns the links in insertion order with every nonzero-weight link
given the Mayer objective base (the function reads only `ocp.n_phases` and
never touches a pool). -/
theorem prepare_multinode_constraints_spec (nPhases : Nat) (ms : List MNCLink) :
    (prepare_multinode_constraints nPhases ms = .error () ↔
      ∃ m ∈ ms, ∃ p ∈ m.nodesPhase, p < 0 ∨ (nPhases : Int) ≤ p) ∧
    ((∀ m ∈ ms, ∀ p ∈ m.nodesPhase, 0 ≤ p ∧ p < (nPhases : Int)) →
      prepare_multinode_constraints nPhases ms = .ok (ms.map setMayerBase)) ∧
    (∀ m : MNCLink, m.weight ≠ 0 →
      (setMayerBase m).base = some PenaltyBase.mayerFunction) := by
  refine ⟨?_, ?_, ?_⟩
  · rw [prepare_error_iff]
    constructor
    · rintro ⟨m, hm, hbad⟩
      exact ⟨m, hm, (linkPhasesOk_false_iff nPhases m).mp hbad⟩
    · rintro ⟨m, hm, hbad⟩
      exact ⟨m, hm, (linkPhasesOk_false_iff nPhases m).mpr hbad⟩
  · intro h
    refine prepare_ok nPhases ms (fun m hm => ?_)
    rcases hok : linkPhasesOk nPhases m with _ | _
    · rcases (linkPhasesOk_false_iff nPhases m).mp hok with ⟨p, hp, hbad⟩
      have := h m hm p hp
      omega
    · rfl
  · intro m hw
    simp [setMayerBase, hw]

/-- Witness for C5: with one phase and a single in-range link of weight 5,
preparation succeeds and marks the link with the Mayer base. -/
theorem prepare_multinode_constraints_spec_witness :
    (∀ m ∈ [MNCLink.mk [0] 5 none], ∀ p ∈ m.nodesPhase, 0 ≤ p ∧ p < (1 : Int)) ∧
    prepare_multinode_constraints 1 [MNCLink.mk [0] 5 none] =
      .ok ([MNCLink.mk [0] 5 none].map setMayerBase) :=
  ⟨by decide, (prepare_multinode_constraints_spec 1 [MNCLink.mk [0] 5 none]).2.1 (by decide)⟩

lemma prepareFinalState_getElem (nPhases : Nat) : ∀ (ms : List MNCLink) (k i : Nat),
    (∀ mj ∈ ms.take k, linkPhasesOk nPhases mj = true) → i < k →
    (prepareFinalState nPhases ms)[i]? = (ms[i]?).map setMayerBase := by
  intro ms
  induction ms with
  | nil => intro k i _ _; simp [prepareFinalState]
  | cons m rest ih =>
    intro k i hk hi
    cases k with
    | zero => omega
    | succ k =>
      have hm : linkPhasesOk nPhases m = true :=
        hk m (by simp [List.take_succ_cons])
      have hrest : ∀ mj ∈ rest.take k, linkPhasesOk nPhases mj = true := by
        intro mj hmj
        exact hk mj (by simp [List.take_succ_cons, hmj])
      cases i with
      | zero => simp [prepareFinalState, hm]
      | succ j =>
        simp only [prepareFinalState, hm, if_true, List.getElem?_cons_succ]
        exact ih k j hrest (by omega)

/-- C10: `prepare_multinode_constraints` is not atomic on error: if the
first `k` links all pass the phase check and the link at position `k` fails
it, the call raises, yet in the final state of the collection every earlier
link has already been processed — in particular every earlier nonzero-weight
link carries the Mayer base — and nothing is rolled back. -/
theorem prepare_multinode_constraints_not_atomic (nPhases : Nat) (ms : List MNCLink)
    (k : Nat) (mbad : MNCLink)
    (h1 : ∀ mj ∈ ms.take k, linkPhasesOk nPhases mj = true)
    (h2 : ms[k]? = some mbad)
    (h3 : linkPhasesOk nPhases mbad = false) :
    prepare_multinode_constraints nPhases ms = .error () ∧
    (∀ i < k, (prepareFinalState nPhases ms)[i]? = (ms[i]?).map setMayerBase) ∧
    (∀ i < k, ∀ mi, ms[i]? = some mi → mi.weight ≠ 0 →
      (prepareFinalState nPhases ms)[i]? =
        some (MNCLink.mk mi.nodesPhase mi.weight (some PenaltyBase.mayerFunction))) := by
  have hmem : mbad ∈ ms := List.getElem?_mem h2
  have herr : prepare_multinode_constraints nPhases ms = .error () :=
    (prepare_error_iff nPhases ms).mpr ⟨mbad, hmem, h3⟩
  have hget : ∀ i < k, (prepareFinalState nPhases ms)[i]? = (ms[i]?).map setMayerBase :=
    fun i hi => prepareFinalState_getElem nPhases ms k i h1 hi
  refine ⟨herr, hget, ?_⟩
  intro i hi mi hmi hw
  rw [hget i hi, hmi]
  simp [setMayerBase, hw]

/-- Witness for C10: with one phase, processing `[weight 5 on phase 0,
weight 0 on phase −1]` raises on the second link while the first link's
base has already been set to Mayer. -/
theorem prepare_multinode_constraints_not_atomic_witness :
    ((∀ mj ∈ ([MNCLink.mk [0] 5 none, MNCLink.mk [-1] 0 none].take 1),
        linkPhasesOk 1 mj = true) ∧
      ([MNCLink.mk [0] 5 none, MNCLink.mk [-1] 0 none][1]? = some (MNCLink.mk [-1] 0 none)) ∧
      linkPhasesOk 1 (MNCLink.mk [-1] 0 none) = false) ∧
    prepare_multinode_constraints 1 [MNCLink.mk [0] 5 none, MNCLink.mk [-1] 0 none] =
      .error () ∧
    (prepareFinalState 1 [MNCLink.mk [0] 5 none, MNCLink.mk [-1] 0 none])[0]? =
      some (MNCLink.mk [0] 5 (some PenaltyBase.mayerFunction)) := by
  have h := prepare_multinode_constraints_not_atomic 1
    [MNCLink.mk [0] 5 none, MNCLink.mk [-1] 0 none] 1 (MNCLink.mk [-1] 0 none)
    (by decide) (by decide) (by decide)
  exact ⟨⟨by decide, by decide, by decide⟩, h.1,
    h.2.2 0 (by decide) (MNCLink.mk [0] 5 none) (by decide) (by decide)⟩

lemma vecSub_self (s : List Int) : vecSub s s = vecZeros s.length := by
  induction s with
  | nil => rfl
  | cons a rest ih =>
    simp only [vecSub, List.zipWith_cons_cons, sub_self, vecZeros, List.length_cons,
      List.replicate_succ]
    exact congrArg _ ih

lemma vecAdd_zeros (n : Nat) : vecAdd (vecZeros n) (vecZeros n) = vecZeros n := by
  induction n with
  | zero => rfl
  | succ n ih =>
    simp only [vecAdd, vecZeros, List.replicate_succ, List.zipWith_cons_cons, add_zero]
    exact congrArg _ ih

lemma statesEqualityLoop_const (m : StatesMapping) (s0 : List Int) :
    ∀ rest : List (List Int), (∀ ci ∈ rest, m.toFirst ci = s0) →
      statesEqualityLoop m s0 (vecZeros s0.length) rest = .ok (vecZeros s0.length) := by
  intro rest
  induction rest with
  | nil => intro _; rfl
  | cons ci rest ih =>
    intro h
    have hci : m.toFirst ci = s0 := h ci (List.mem_cons_self _ _)
    show (if s0.length ≠ (m.toFirst ci).length then Except.error ShapeErr.shapeMismatch
      else statesEqualityLoop m s0 (vecAdd (vecZeros s0.length) (vecSub s0 (m.toFirst ci)))
        rest) = .ok (vecZeros s0.length)
    rw [hci, if_neg (by simp), vecSub_self, vecAdd_zeros]
    exact ih (fun x hx => h x (List.mem_cons_of_mem _ hx))

/-- C6: with two or more controllers, if `to_first` of every subsequent
controller's state vector equals `to_second` of the first controller's state
vector, `states_equality` realizes to the exact zero vector. -/
theorem states_equality_zero (m : StatesMapping) (c0 : List Int) (rest : List (List Int))
    (_hrest : rest ≠ []) (h : ∀ ci ∈ rest, m.toFirst ci = m.toSecond c0) :
    states_equality m c0 rest = .ok (vecZeros (m.toSecond c0).length) :=
  statesEqualityLoop_const m (m.toSecond c0) rest h

/-- Witness for C6: the identity mapping and equal state vectors `[1, 2]`
realize to the zero vector of length 2. -/
theorem states_equality_zero_witness :
    (([[1, 2]] : List (List Int)) ≠ [] ∧
      ∀ ci ∈ ([[1, 2]] : List (List Int)),
        (StatesMapping.mk id id).toFirst ci = (StatesMapping.mk id id).toSecond [1, 2]) ∧
    states_equality (StatesMapping.mk id id) [1, 2] [[1, 2]] = .ok (vecZeros 2) :=
  ⟨⟨by decide, by decide⟩,
    states_equality_zero (StatesMapping.mk id id) [1, 2] [[1, 2]] (by decide) (by decide)⟩

lemma statesEqualityLoop_error (m : StatesMapping) (s0 : List Int) :
    ∀ (rest : List (List Int)) (out : List Int),
      (∃ ci ∈ rest, (m.toFirst ci).length ≠ s0.length) →
      statesEqualityLoop m s0 out rest = .error .shapeMismatch := by
  intro rest
  induction rest with
  | nil =>
    intro out h
    simp at h
  | cons ci rest ih =>
    intro out h
    show (if s0.length ≠ (m.toFirst ci).length then Except.error ShapeErr.shapeMismatch
      else statesEqualityLoop m s0 (vecAdd out (vecSub s0 (m.toFirst ci))) rest) = _
    by_cases hc : s0.length = (m.toFirst ci).length
    · rw [if_neg (by omega)]
      apply ih
      rcases h with ⟨cj, hcj, hlen⟩
      rcases List.mem_cons.mp hcj with rfl | hmem
      · exact absurd hc.symm hlen
      · exact ⟨cj, hmem, hlen⟩
    · rw [if_pos hc]

lemma controlsEqualityLoop_error (c0 : List Int) :
    ∀ (rest : List (List Int)) (out : List Int),
      (∃ ci ∈ rest, ci.length ≠ c0.length) →
      controlsEqualityLoop c0 out rest = .error .shapeMismatch := by
  intro rest
  induction rest with
  | nil =>
    intro out h
    simp at h
  | cons ci rest ih =>
    intro out h
    show (if c0.length ≠ ci.length then Except.error ShapeErr.shapeMismatch
      else controlsEqualityLoop c0 (vecAdd out (vecSub c0 ci)) rest) = _
    by_cases hc : c0.length = ci.length
    · rw [if_neg (by omega)]
      apply ih
      rcases h with ⟨cj, hcj, hlen⟩
      rcases List.mem_cons.mp hcj with rfl | hmem
      · exact absurd hc.symm hlen
      · exact ⟨cj, hmem, hlen⟩
    · rw [if_pos hc]

/-- C7: `states_equality` fails with the shape-mismatch error whenever the
mapped state vector of some subsequent controller differs in shape from the
mapped state vector of the first controller, and `controls_equality` fails
the same way on a shape difference between raw control vectors (no mapping
applied). -/
theorem equality_shape_mismatch (m : StatesMapping) (c0s : List Int)
    (restS : List (List Int)) (c0c : List Int) (restC : List (List Int)) :
    ((∃ ci ∈ restS, (m.toFirst ci).length ≠ (m.toSecond c0s).length) →
      states_equality m c0s restS = .error .shapeMismatch) ∧
    ((∃ ci ∈ restC, ci.length ≠ c0c.length) →
      controls_equality c0c restC = .error .shapeMismatch) :=
  ⟨fun h => statesEqualityLoop_error m (m.toSecond c0s) restS _ h,
    fun h => controlsEqualityLoop_error c0c restC _ h⟩

/-- Witness for C7: a first vector of length 1 against a subsequent vector
of length 2 raises the shape-mismatch error on both paths. -/
theorem equality_shape_mismatch_witness :
    states_equality (StatesMapping.mk id id) [1] [[1, 2]] = .error .shapeMismatch ∧
    controls_equality [1] [[1, 2]] = .error .shapeMismatch :=
  ⟨(equality_shape_mismatch (StatesMapping.mk id id) [1] [[1, 2]] [1] [[1, 2]]).1
      ⟨[1, 2], by decide, by decide⟩,
    (equality_shape_mismatch (StatesMapping.mk id id) [1] [[1, 2]] [1] [[1, 2]]).2
      ⟨[1, 2], by decide, by decide⟩⟩

/-- C1: evaluation of `time_equality` at concrete inputs. First conjunct:
with one controller lacking a `time_phase_<phase_idx>` parameter, the call
fails with the missing-time-parameter error, as the claim says. The
remaining conjuncts refute the claim's residual: with both name searches
succeeding and both located parameter values equal to 5, the residual is
`3 - 9 = -6`, not zero — after the name search succeeds, the source indexes
`parameters.cx` at `phase_idx` instead of at the position where the name
matched, so the residual subtracts two unrelated parameter values. -/
theorem time_equality_wrong_entry :
    time_equality (TimeCtrl.mk 0 [("other", 3)])
        (TimeCtrl.mk 1 [("time_phase_1", 5)]) = .error .missingTimeParameterPre ∧
    locatedTimeValue (TimeCtrl.mk 0 [("other", 3), ("time_phase_0", 5)]) = some 5 ∧
    locatedTimeValue (TimeCtrl.mk 1 [("time_phase_1", 5), ("other2", 9)]) = some 5 ∧
    time_equality (TimeCtrl.mk 0 [("other", 3), ("time_phase_0", 5)])
        (TimeCtrl.mk 1 [("time_phase_1", 5), ("other2", 9)]) = .ok (-6) ∧
    time_equality (TimeCtrl.mk 0 [("other", 3), ("time_phase_0", 5)])
        (TimeCtrl.mk 1 [("time_phase_1", 5), ("other2", 9)]) ≠ .ok 0 := by
  have h4 : time_equality (TimeCtrl.mk 0 [("other", 3), ("time_phase_0", 5)])
      (TimeCtrl.mk 1 [("time_phase_1", 5), ("other2", 9)]) = .ok (-6) := rfl
  refine ⟨rfl, rfl, rfl, h4, fun hc => ?_⟩
  rw [h4] at hc
  injection hc with h0
  exact absurd h0 (by decide)

end Bioptim
